import Mathlib

/-!
Verification of the bidding-auction-servers orchestration pipeline against
its natural-language specification.  The definitions below are a shallow
embedding of the C++ sources:

- services/seller_frontend_service/select_ad_reactor.cc
- services/seller_frontend_service/util/web_utils.cc
- services/buyer_frontend_service/get_bids_unary_reactor.cc
- services/common/util/reporting_util.cc

Numeric bid and score values (C++ float/double) are modelled as rationals:
every claim checked here depends only on sign tests and equality of these
values, never on rounding, so the embedding is faithful for them.
Protobuf maps are modelled as association lists in insertion order.
-/

namespace BA

/-- One interest group inside a decoded BuyerInput (api proto InterestGroup);
only the fields the verified operations read are carried. -/
structure InterestGroup where
  name : String
  biddingSignalsKeys : List String
  deriving Repr, DecidableEq, Inhabited

/-- Decoded BuyerInput: the ordered list of interest groups as they appeared
in the client's encoded input. -/
structure BuyerInput where
  interestGroups : List InterestGroup
  deriving Repr, DecidableEq, Inhabited

/-- AdWithBid returned by a buyer front end (api proto AdWithBid); fields
used by the SFE collation and debug reporting paths. -/
structure AdWithBid where
  render : String
  bid : ℚ
  interestGroupName : String
  deriving Repr, DecidableEq, Inhabited

/-- AdWithBidMetadata as built by SelectAdReactor::BuildAdWithBidMetadata:
the buyer bid enriched with the interest group owner taken from the BFE the
bid came from. -/
structure AdWithBidMetadata where
  render : String
  bid : ℚ
  interestGroupName : String
  interestGroupOwner : String
  deriving Repr, DecidableEq, Inhabited

/-- GetBidsRawResponse from one buyer front end: its list of bids. -/
structure GetBidsRawResponse where
  bids : List AdWithBid
  deriving Repr, DecidableEq, Inhabited

/-- ReportingUrls message: a reporting url plus event-level interaction
reporting urls. -/
structure ReportingUrls where
  reportingUrl : String
  interactionReportingUrls : List (String × String)
  deriving Repr, DecidableEq, Inhabited

/-- WinReportingUrls message: buyer and top-level-seller reporting urls,
each optional (protobuf has_ bits). -/
structure WinReportingUrls where
  buyerReportingUrls : Option ReportingUrls
  topLevelSellerReportingUrls : Option ReportingUrls
  deriving Repr, DecidableEq, Inhabited

/-- Seller rejection reasons: the proto enum SellerRejectionReason has
exactly these eight values. -/
inductive SellerRejectionReason where
  | notAvailable
  | invalidBid
  | bidBelowAuctionFloor
  | pendingApprovalByExchange
  | disapprovedByExchange
  | blockedByPublisher
  | languageExclusions
  | categoryExclusions
  deriving Repr, DecidableEq, Inhabited

/-- One entry of AdScore.ad_rejection_reasons. -/
structure AdRejectionReason where
  interestGroupOwner : String
  interestGroupName : String
  rejectionReason : SellerRejectionReason
  deriving Repr, DecidableEq, Inhabited

/-- ScoreAdsResponse.AdScore: the winner's score as produced by the Auction
service; ig_owner_highest_scoring_other_bids_map maps an owner to a list of
bid values. -/
structure AdScore where
  desirability : ℚ
  buyerBid : ℚ
  render : String
  componentRenders : List String
  interestGroupName : String
  interestGroupOwner : String
  winReportingUrls : WinReportingUrls
  igOwnerHighestScoringOtherBidsMap : List (String × List ℚ)
  adRejectionReasons : List AdRejectionReason
  deriving Repr, DecidableEq, Inhabited

/-- ScoreAdsRawResponse: optionally carries an AdScore. -/
structure ScoreAdsRawResponse where
  adScore : Option AdScore
  deriving Repr, DecidableEq, Inhabited

/-- AuctionResult.Error: code and message, sent inside the encrypted
response. -/
structure AuctionResultError where
  code : ℕ
  message : String
  deriving Repr, DecidableEq, Inhabited

namespace SelectAdReactor

/-- Names of interest groups associated with strictly positive bids: the
contents of the buyer_interest_groups hash set built by the first loop of
SelectAdReactor::GetBiddingGroups. -/
def positiveBidNames (bids : List AdWithBid) : List String :=
  (bids.filter (fun b => 0 < b.bid)).map (fun b => b.interestGroupName)

/-- The second loop of SelectAdReactor::GetBiddingGroups: walk the buyer's
interest groups with a running index, recording the index of every group
whose name is in the positive-bid name set. -/
def collectIndicesFrom (names : List String) : ℕ → List InterestGroup → List ℕ
  | _, [] => []
  | i, ig :: rest =>
    if ig.name ∈ names then i :: collectIndicesFrom names (i + 1) rest
    else collectIndicesFrom names (i + 1) rest

/-- SelectAdReactor::GetBiddingGroups restricted to one buyer of the shared
bid map: the index list stored under that buyer in AuctionResult's
bidding_groups. -/
def GetBiddingGroupsForBuyer (response : GetBidsRawResponse)
    (buyerInput : BuyerInput) : List ℕ :=
  collectIndicesFrom (positiveBidNames response.bids) 0 buyerInput.interestGroups

/-- SelectAdReactor::GetBiddingGroups over the whole shared buyer bids map
(association list buyer → GetBidsRawResponse), with the decoded buyer
inputs looked up per buyer as buyer_inputs_->at(buyer) is. -/
def GetBiddingGroups (sharedBuyerBidsMap : List (String × GetBidsRawResponse))
    (buyerInputs : List (String × BuyerInput)) : List (String × List ℕ) :=
  sharedBuyerBidsMap.map (fun p =>
    (p.1, GetBiddingGroupsForBuyer p.2 ((buyerInputs.lookup p.1).getD default)))

end SelectAdReactor

namespace WebUtils

/-- CBOR item trees as built by web_utils.cc through libcbor.  Map keys in
every map the encoder builds are strings, so entries are keyed by String.
Entries are kept in the order cbor_map_add appended them: that order is the
order the serializer emits them in. -/
inductive CborValue where
  | str (s : String)
  | uint (n : ℕ)
  | flt (q : ℚ)
  | boolean (b : Bool)
  | arr (items : List CborValue)
  | map (entries : List (String × CborValue))
  deriving Inhabited

/-- Lexicographic comparison of character lists (std::string operator<). -/
def lexLe : List Char → List Char → Bool
  | [], _ => true
  | _ :: _, [] => false
  | a :: as, b :: bs =>
    if a < b then true
    else if a = b then lexLe as bs
    else false

/-- The kComparator used by web_utils.cc to order map keys: shorter strings
first, ties broken lexicographically (shortlex).  Modelled from the spec:
the constant lives in web_utils.h which is not part of the sources here;
its behaviour is pinned by the VerifyBiddingGroupBuyerOriginOrdering test. -/
def shortlexLe (a b : String) : Bool :=
  if a.length < b.length then true
  else if b.length < a.length then false
  else lexLe a.data b.data

/-- Propositional form of the shortlex order, used to state sortedness. -/
def ShortlexLe (a b : String) : Prop := shortlexLe a b = true

instance : DecidableRel ShortlexLe := fun a b => by
  unfold ShortlexLe; infer_instance

/-- CBOR map key constants used by the AuctionResult encoder.  Modelled from
the spec: the string values live in request_response_constants.h which is
not part of the sources here; the spec fixes the encode shape keys as bid,
score, isChaff, components, adRenderURL, biddingGroups, winReportingURLs,
interestGroupName, interestGroupOwner, error, code, message. -/
def kBid : String := "bid"

def kScore : String := "score"

def kChaff : String := "isChaff"

def kAdComponents : String := "components"

def kAdRenderUrl : String := "adRenderURL"

def kBiddingGroups : String := "biddingGroups"

def kWinReportingUrls : String := "winReportingURLs"

def kInterestGroupName : String := "interestGroupName"

def kInterestGroupOwner : String := "interestGroupOwner"

def kError : String := "error"

def kCode : String := "code"

def kMessage : String := "message"

def kBuyerReportingUrls : String := "buyerReportingURLs"

def kTopLevelSellerReportingUrls : String := "topLevelSellerReportingURLs"

def kReportingUrl : String := "reportingURL"

def kInteractionReportingUrls : String := "interactionReportingURLs"

/-- cbor_build_uint from web_utils.cc: pick the 1, 2 or 4 byte unsigned
representation for a uint32 input.  The result records the chosen width in
bytes. -/
def cbor_build_uint_width (input : ℕ) : ℕ :=
  if input ≤ 255 then 1
  else if input ≤ 65535 then 2
  else 4

/-- CborSerializeError: build the error map with message first then code
(the order cbor_map_add receives them in the source) and append it to the
root under the error key. -/
def CborSerializeError (error : BA.AuctionResultError) : String × CborValue :=
  (kError, .map [(kMessage, .str error.message), (kCode, .uint error.code)])

/-- The ordered origin set built by CborSerializeBiddingGroups: a std::set
over kComparator, i.e. the keys sorted by shortlex.  List.insertionSort
with the shortlex relation yields exactly that sorted sequence (the map
keys of a protobuf map are distinct). -/
def orderedOrigins (biddingGroups : List (String × List ℕ)) : List String :=
  (biddingGroups.map Prod.fst).insertionSort ShortlexLe

/-- CborSerializeBiddingGroups: emit, in shortlex origin order, one entry
per origin whose value is the array of interest-group indices, each index
serialized through cbor_build_uint. -/
def CborSerializeBiddingGroups (biddingGroups : List (String × List ℕ)) :
    String × CborValue :=
  (kBiddingGroups, .map ((orderedOrigins biddingGroups).map (fun origin =>
    (origin, .arr (((biddingGroups.lookup origin).getD []).map
      (fun index => .uint index))))))

/-- The ordered event set of CborSerializeInteractionReportingUrls: events
sorted by the same shortlex comparator. -/
def orderedEvents (interactionUrlMap : List (String × String)) : List String :=
  (interactionUrlMap.map Prod.fst).insertionSort ShortlexLe

/-- CborSerializeInteractionReportingUrls: event to url entries in shortlex
event order. -/
def CborSerializeInteractionReportingUrls
    (interactionUrlMap : List (String × String)) : String × CborValue :=
  (kInteractionReportingUrls, .map ((orderedEvents interactionUrlMap).map
    (fun event => (event, .str ((interactionUrlMap.lookup event).getD "")))))

/-- CborSerializeReportingUrls: serialize one ReportingUrls message,
emitting the reportingURL entry and the interactionReportingURLs entry only
when non-empty; returns no entry at all when both are empty. -/
def CborSerializeReportingUrls (key : String) (urls : BA.ReportingUrls) :
    List (String × CborValue) :=
  if urls.reportingUrl.isEmpty ∧ urls.interactionReportingUrls.isEmpty then []
  else
    [(key, .map
      ((if urls.reportingUrl.isEmpty then []
        else [(kReportingUrl, CborValue.str urls.reportingUrl)]) ++
       (if urls.interactionReportingUrls.isEmpty then []
        else [CborSerializeInteractionReportingUrls
                urls.interactionReportingUrls])))]

/-- CborSerializeWinReportingUrls: skipped entirely when neither buyer nor
top-level-seller urls are present; otherwise emits the winReportingURLs
entry containing the present sub-messages. -/
def CborSerializeWinReportingUrls (win : BA.WinReportingUrls) :
    List (String × CborValue) :=
  match win.buyerReportingUrls, win.topLevelSellerReportingUrls with
  | none, none => []
  | buyer, topLevel =>
    [(kWinReportingUrls, .map
      ((match buyer with
        | none => []
        | some urls => CborSerializeReportingUrls kBuyerReportingUrls urls) ++
       (match topLevel with
        | none => []
        | some urls =>
          CborSerializeReportingUrls kTopLevelSellerReportingUrls urls)))]

/-- CborSerializeScoreAdResponse: the winner entries of the top-level
AuctionResult map, appended in the order the source serializes them. -/
def CborSerializeScoreAdResponse (adScore : BA.AdScore)
    (biddingGroupMap : List (String × List ℕ)) : List (String × CborValue) :=
  [(kBid, .flt adScore.buyerBid),
   (kScore, .flt adScore.desirability),
   (kChaff, .boolean false),
   (kAdComponents, .arr (adScore.componentRenders.map (fun r => .str r))),
   (kAdRenderUrl, .str adScore.render),
   CborSerializeBiddingGroups biddingGroupMap] ++
  CborSerializeWinReportingUrls adScore.winReportingUrls ++
  [(kInterestGroupName, .str adScore.interestGroupName),
   (kInterestGroupOwner, .str adScore.interestGroupOwner)]

/-- Encode from web_utils.cc: the top-level AuctionResult CBOR map.  Error
wins over winner; with neither, a chaff marker is emitted. -/
def Encode (highScore : Option BA.AdScore)
    (biddingGroupMap : List (String × List ℕ))
    (error : Option BA.AuctionResultError) : CborValue :=
  match error with
  | some e => .map [CborSerializeError e]
  | none =>
    match highScore with
    | some score => .map (CborSerializeScoreAdResponse score biddingGroupMap)
    | none => .map [(kChaff, .boolean true)]

/-- Keys of a CBOR map value, in emitted order; empty for non-maps. -/
def mapKeys : CborValue → List String
  | .map entries => entries.map Prod.fst
  | _ => []

/-- Entry lookup in a CBOR map value. -/
def mapGet (v : CborValue) (key : String) : Option CborValue :=
  match v with
  | .map entries => entries.lookup key
  | _ => none

/-- Whether the encoded result carries an isChaff marker with the given
boolean value. -/
def hasChaffMarker (v : CborValue) (b : Bool) : Bool :=
  match mapGet v kChaff with
  | some (.boolean b2) => b == b2
  | _ => false

/-- The encoded result is in the winner state: isChaff is present and
false. -/
def isWinnerResult (v : CborValue) : Bool := hasChaffMarker v false

/-- The encoded result is in the chaff state: isChaff is present and
true. -/
def isChaffResult (v : CborValue) : Bool := hasChaffMarker v true

/-- The encoded result is in the error state: an error entry is present. -/
def isErrorResult (v : CborValue) : Bool := (mapGet v kError).isSome

end WebUtils

/-- Status of a failed downstream gRPC call or of a Finish call: numeric
code plus message. -/
structure GrpcError where
  code : ℕ
  message : String
  deriving Repr, DecidableEq, Inhabited

namespace SelectAdReactor

/-- Scoring signals fetched from the seller key-value server. -/
structure ScoringSignals where
  scoringSignals : String
  deriving Repr, DecidableEq, Inhabited

/-- ScoreAdsRawRequest as assembled by CreateScoreAdsRequest; the
scoring_signals field is absent when the fetched signals were never
installed on the reactor. -/
structure ScoreAdsRawRequest where
  adBids : List AdWithBidMetadata
  auctionSignals : String
  sellerSignals : String
  scoringSignals : Option String
  deriving Repr, DecidableEq, Inhabited

/-- SelectAdReactor::BuildAdWithBidMetadata: copy the bid fields and attach
the interest group owner derived from the BFE the response came from. -/
def BuildAdWithBidMetadata (input : AdWithBid) (interestGroupOwner : String) :
    AdWithBidMetadata :=
  ⟨input.render, input.bid, input.interestGroupName, interestGroupOwner⟩

/-- The reactor fields CreateScoreAdsRequest reads: the shared buyer bids
map filled during collation, the auction config signals, and the
scoring_signals_ member (null until a successful fetch installs it). -/
structure SfeBidState where
  sharedBuyerBidsMap : List (String × GetBidsRawResponse)
  auctionSignals : String
  sellerSignals : String
  scoringSignals : Option ScoringSignals
  deriving Repr, DecidableEq, Inhabited

/-- SelectAdReactor::CreateScoreAdsRequest: every bid of every buyer in the
shared map becomes an AdWithBidMetadata; scoring signals are attached only
when the member is non-null. -/
def CreateScoreAdsRequest (st : SfeBidState) : ScoreAdsRawRequest :=
  ⟨(st.sharedBuyerBidsMap.map (fun p =>
      p.2.bids.map (fun b => BuildAdWithBidMetadata b p.1))).flatten,
   st.auctionSignals,
   st.sellerSignals,
   st.scoringSignals.map (fun s => s.scoringSignals)⟩

/-- Next step the SFE takes after the scoring-signals fetch resolves. -/
inductive SfeScoringAction where
  | invokeScoring (request : ScoreAdsRawRequest)
  deriving Repr, DecidableEq, Inhabited

/-- SelectAdReactor::OnFetchScoringSignalsDone: install the signals on
success, only log on failure, and call ScoreAds in both cases. -/
def OnFetchScoringSignalsDone (st : SfeBidState)
    (result : Except GrpcError ScoringSignals) : SfeScoringAction :=
  let st2 : SfeBidState :=
    match result with
    | .ok signals => ⟨st.sharedBuyerBidsMap, st.auctionSignals,
                      st.sellerSignals, some signals⟩
    | .error _ => st
  .invokeScoring (CreateScoreAdsRequest st2)

/-- The error-accumulator contents OnScoreAdsDone consults: the CLIENT_SIDE
error strings collected under each visibility. -/
structure ErrorAccumulatorState where
  clientVisibleErrors : List String
  adServerVisibleErrors : List String
  deriving Repr, DecidableEq, Inhabited

/-- The delimiter used by absl StrJoin over accumulated errors.  Modelled
from the spec: kErrorDelimiter lives in error_categories.h which is not
part of the sources here; the spec fixes a semicolon delimiter. -/
def kErrorDelimiter : String := ";"

/-- ErrorCode CLIENT_SIDE.  Modelled from the spec: error_categories.h is
not part of the sources here; the spec fixes ClientSide as 400. -/
def ClientSideErrorCode : ℕ := 400

/-- SelectAdReactor::GetAccumulatedErrorString restricted to one visibility:
join the CLIENT_SIDE entries with the delimiter. -/
def GetAccumulatedErrorString (errors : List String) : String :=
  String.intercalate kErrorDelimiter errors

/-- SelectAdReactor::MayPopulateClientVisibleErrors combined with the
HaveClientVisibleErrors gate of OnScoreAdsDone: the error message carried
into the AuctionResult when client-visible errors were accumulated. -/
def MayPopulateClientVisibleErrors (acc : ErrorAccumulatorState) :
    Option AuctionResultError :=
  if acc.clientVisibleErrors.isEmpty then none
  else some ⟨ClientSideErrorCode,
             GetAccumulatedErrorString acc.clientVisibleErrors⟩

/-- How the SFE finishes the SelectAd RPC. -/
inductive FinishStatus where
  | ok
  | invalidArgument (message : String)
  | failed (code : ℕ) (message : String)
  deriving Repr, DecidableEq, Inhabited

/-- Outcome of OnScoreAdsDone: the gRPC finish status, and the AuctionResult
plaintext (the CBOR value produced by Encode) that gets sealed into
auction_result_ciphertext, when one is produced at all. -/
structure SfeOutcome where
  status : FinishStatus
  auctionResultPlaintext : Option WebUtils.CborValue
  deriving Inhabited

/-- The buyer_bid gate at the top of the success branch of
SelectAdReactor::OnScoreAdsDone: a high score exists only when the response
carries an ad score whose buyer_bid is strictly positive. -/
def highScoreOfResponse (resp : ScoreAdsRawResponse) : Option AdScore :=
  match resp.adScore with
  | some score => if 0 < score.buyerBid then some score else none
  | none => none

/-- SelectAdReactor::OnScoreAdsDone for the browser (CBOR) reactor, whose
GetNonEncryptedResponse is Encode from web_utils.cc.  Ad-server-visible
errors finish the RPC with INVALID_ARGUMENT and produce no result; a failed
scoring call propagates its status; otherwise the RPC finishes OK with the
encoded AuctionResult, carrying the accumulated client-visible errors when
present. -/
def OnScoreAdsDone (acc : ErrorAccumulatorState)
    (biddingGroupMap : List (String × List ℕ))
    (response : Except GrpcError ScoreAdsRawResponse) : SfeOutcome :=
  if ¬ acc.adServerVisibleErrors.isEmpty then
    ⟨.invalidArgument (GetAccumulatedErrorString acc.adServerVisibleErrors),
     none⟩
  else
    match response with
    | .error st => ⟨.failed st.code st.message, none⟩
    | .ok resp =>
      ⟨.ok, some (WebUtils.Encode (highScoreOfResponse resp) biddingGroupMap
                    (MayPopulateClientVisibleErrors acc))⟩

end SelectAdReactor

namespace GetBidsUnaryReactor

/-- Opaque bidding signals fetched from the buyer key-value server. -/
structure BiddingSignals where
  tbs : String
  deriving Repr, DecidableEq, Inhabited

/-- The part of GenerateBidsRawRequest the claim observes: the signals the
Bidding service would be called with. -/
structure GenerateBidsRawRequest where
  biddingSignals : Option BiddingSignals
  deriving Repr, DecidableEq, Inhabited

/-- Next step of the BFE after the bidding-signals fetch resolves. -/
inductive BfeStep where
  | finished (code : ℕ) (message : String)
  | callBidding (request : GenerateBidsRawRequest)
  deriving Repr, DecidableEq, Inhabited

/-- The completion callback GetBidsUnaryReactor::GetProtectedAudienceBids
registers on the bidding-signals fetch (get_bids_unary_reactor.cc lines
106 to 129): a failed fetch finishes the RPC with the fetch status and
returns; a successful fetch proceeds to
PrepareAndGenerateProtectedAudienceBid, which calls the Bidding service
with the fetched signals. -/
def onBiddingSignalsResponse (response : Except GrpcError BiddingSignals) :
    BfeStep :=
  match response with
  | .error status => .finished status.code status.message
  | .ok signals => .callBidding ⟨some signals⟩

/-- Discriminator: does this step call the Bidding service? -/
def BfeStep.isCallBidding : BfeStep → Bool
  | .callBidding _ => true
  | .finished _ _ => false

end GetBidsUnaryReactor

namespace ReportingUtil

/-- The eight rejection-reason strings of reporting_util.cc (the constants
live in reporting_util.h; their values are pinned by
reporting_util_test.cc). -/
def kRejectionReasonNotAvailable : String := "not-available"

def kRejectionReasonInvalidBid : String := "invalid-bid"

def kRejectionReasonBidBelowAuctionFloor : String := "bid-below-auction-floor"

def kRejectionReasonPendingApprovalByExchange : String :=
  "pending-approval-by-exchange"

def kRejectionReasonDisapprovedByExchange : String := "disapproved-by-exchange"

def kRejectionReasonBlockedByPublisher : String := "blocked-by-publisher"

def kRejectionReasonLanguageExclusions : String := "language-exclusions"

def kRejectionReasonCategoryExclusions : String := "category-exclusions"

/-- ToSellerRejectionReasonString from reporting_util.cc: the switch over
the enum; the default branch (reached for NOT_AVAILABLE) returns the
not-available string. -/
def ToSellerRejectionReasonString : SellerRejectionReason → String
  | .invalidBid => kRejectionReasonInvalidBid
  | .bidBelowAuctionFloor => kRejectionReasonBidBelowAuctionFloor
  | .pendingApprovalByExchange => kRejectionReasonPendingApprovalByExchange
  | .disapprovedByExchange => kRejectionReasonDisapprovedByExchange
  | .blockedByPublisher => kRejectionReasonBlockedByPublisher
  | .languageExclusions => kRejectionReasonLanguageExclusions
  | .categoryExclusions => kRejectionReasonCategoryExclusions
  | .notAvailable => kRejectionReasonNotAvailable

/-- The five placeholder patterns of the debug-reporting pipeline (values
pinned by reporting_util_test.cc and the spec). -/
def kWinningBidPlaceholder : String := "${winningBid}"

def kMadeWinningBidPlaceholder : String := "${madeWinningBid}"

def kHighestScoringOtherBidPlaceholder : String := "${highestScoringOtherBid}"

def kMadeHighestScoringOtherBidPlaceholder : String :=
  "${madeHighestScoringOtherBid}"

def kRejectReasonPlaceholder : String := "${rejectReason}"

/-- DebugReportingPlaceholder: the values substituted into debug urls.
Numeric values are rationals here; their textual rendering models the absl
StrCat formatting at value level. -/
structure DebugReportingPlaceholder where
  winningBid : ℚ
  madeWinningBid : Bool
  highestScoringOtherBid : ℚ
  madeHighestScoringOtherBid : Bool
  rejectionReason : SellerRejectionReason
  deriving Repr, DecidableEq, Inhabited

/-- An outgoing debug-reporting HTTP request: url and headers (the source
always sets empty headers). -/
structure HTTPRequest where
  url : String
  headers : List String
  deriving Repr, DecidableEq, Inhabited

/-- One pass of absl StrReplaceAll: at each position, if some pattern of
the table starts here, emit its replacement and skip the pattern, else keep
the character.  Fuel is the text length; every step consumes at least one
character because every pattern in the tables used here is non-empty. -/
def strReplaceAllAux (table : List (String × String)) :
    ℕ → List Char → List Char
  | 0, text => text
  | _ + 1, [] => []
  | fuel + 1, c :: rest =>
    match table.find? (fun kv => kv.1.data.isPrefixOf (c :: rest)) with
    | some kv => kv.2.data ++ strReplaceAllAux table fuel
        ((c :: rest).drop kv.1.length)
    | none => c :: strReplaceAllAux table fuel rest

/-- absl StrReplaceAll: literal, non-nesting replacement of every pattern
occurrence, scanning left to right. -/
def StrReplaceAll (text : String) (table : List (String × String)) : String :=
  ⟨strReplaceAllAux table text.data.length text.data⟩

/-- The substitution table CreateDebugReportingHttpRequest hands to
StrReplaceAll, in source order. -/
def placeholderTable (pd : DebugReportingPlaceholder) :
    List (String × String) :=
  [(kWinningBidPlaceholder, toString pd.winningBid),
   (kMadeWinningBidPlaceholder, if pd.madeWinningBid then "true" else "false"),
   (kHighestScoringOtherBidPlaceholder, toString pd.highestScoringOtherBid),
   (kMadeHighestScoringOtherBidPlaceholder,
    if pd.madeHighestScoringOtherBid then "true" else "false"),
   (kRejectReasonPlaceholder,
    ToSellerRejectionReasonString pd.rejectionReason)]

/-- CreateDebugReportingHttpRequest from reporting_util.cc: literal
placeholder substitution on the url; empty headers. -/
def CreateDebugReportingHttpRequest (url : String)
    (placeholderData : DebugReportingPlaceholder) : HTTPRequest :=
  ⟨StrReplaceAll url (placeholderTable placeholderData), []⟩

/-- PostAuctionSignals.  The has_highest_scoring_other_bid field is an
Option Bool because the C++ local feeding it is declared without an
initializer: none models the indeterminate value the struct receives when
no branch assigns the local before the return. -/
structure PostAuctionSignals where
  winningIgName : String
  winningIgOwner : String
  winningBid : ℚ
  highestScoringOtherBid : ℚ
  highestScoringOtherBidIgOwner : String
  hasHighestScoringOtherBid : Option Bool
  winningScore : ℚ
  winningAdRenderUrl : String
  rejectionReasonMap : List (String × List (String × SellerRejectionReason))
  deriving Repr, DecidableEq, Inhabited

/-- Default values used by GeneratePostAuctionSignals (constants from
reporting_util.h, pinned by the DoesNotHaveAnySignal test). -/
def kDefaultWinningInterestGroupName : String := ""

def kDefaultWinningInterestGroupOwner : String := ""

def kDefaultWinningBid : ℚ := 0

def kDefaultHighestScoringOtherBid : ℚ := 0

def kDefaultHighestScoringOtherBidInterestGroupOwner : String := ""

def kDefaultHasHighestScoringOtherBid : Bool := false

def kDefaultWinningScore : ℚ := 0

def kDefaultWinningAdRenderUrl : String := ""

/-- try_emplace on the inner interest-group-name map: insert only when the
name is absent. -/
def tryEmplaceInner (inner : List (String × SellerRejectionReason))
    (name : String) (reason : SellerRejectionReason) :
    List (String × SellerRejectionReason) :=
  if (inner.lookup name).isSome then inner else inner ++ [(name, reason)]

/-- One iteration of the rejection-reason grouping loop of
GeneratePostAuctionSignals: group by owner, try_emplace by name. -/
def addRejectionReason
    (m : List (String × List (String × SellerRejectionReason)))
    (owner name : String) (reason : SellerRejectionReason) :
    List (String × List (String × SellerRejectionReason)) :=
  if (m.lookup owner).isSome then
    m.map (fun p =>
      if p.1 = owner then (p.1, tryEmplaceInner p.2 name reason) else p)
  else m ++ [(owner, [(name, reason)])]

/-- The whole rejection-reason grouping loop. -/
def buildRejectionReasonMap (reasons : List AdRejectionReason) :
    List (String × List (String × SellerRejectionReason)) :=
  reasons.foldl
    (fun m a => addRejectionReason m a.interestGroupOwner a.interestGroupName
      a.rejectionReason) []

/-- GeneratePostAuctionSignals from reporting_util.cc.  Without a winning
score every field takes its default (the bool default is an explicit
constant).  With a winning score, the highest-scoring-other-bid triple is
assigned only when the map is non-empty and its first entry has at least
one value; otherwise the owner and bid locals keep their defaults while the
bool local was never initialized, which the Option models as none. -/
def GeneratePostAuctionSignals (winningAdScore : Option AdScore) :
    PostAuctionSignals :=
  match winningAdScore with
  | none =>
    ⟨kDefaultWinningInterestGroupName, kDefaultWinningInterestGroupOwner,
     kDefaultWinningBid, kDefaultHighestScoringOtherBid,
     kDefaultHighestScoringOtherBidInterestGroupOwner,
     some kDefaultHasHighestScoringOtherBid, kDefaultWinningScore,
     kDefaultWinningAdRenderUrl, []⟩
  | some score =>
    let hsob : String × ℚ × Option Bool :=
      match score.igOwnerHighestScoringOtherBidsMap with
      | (igOwner, v :: _) :: _ => (igOwner, v, some true)
      | (_, []) :: _ =>
        (kDefaultHighestScoringOtherBidInterestGroupOwner,
         kDefaultHighestScoringOtherBid, none)
      | [] =>
        (kDefaultHighestScoringOtherBidInterestGroupOwner,
         kDefaultHighestScoringOtherBid, none)
    ⟨score.interestGroupName, score.interestGroupOwner, score.buyerBid,
     hsob.2.1, hsob.1, hsob.2.2, score.desirability, score.render,
     buildRejectionReasonMap score.adRejectionReasons⟩

end ReportingUtil

namespace Framing

/-- Modelled from the spec: the framing metadata in front of the payload,
one version-and-compression byte plus a four byte big-endian payload
length (spec section 4.1); GetEncodedDataSize itself lives in
framing_utils which is not among the sources here. -/
def kFramingMetadataSize : ℕ := 5

/-- Modelled from the spec: the 256 byte floor on encoded responses. -/
def kMinResultBytes : ℕ := 256

/-- Modelled from the spec: the padded size of an encoded response for a
payload of n bytes, the next power of two of payload plus framing
metadata, floored at 256 bytes. -/
def GetEncodedDataSize (n : ℕ) : ℕ :=
  max kMinResultBytes (2 ^ Nat.clog 2 (n + kFramingMetadataSize))

end Framing

/-- A concrete AdScore with no highest-scoring-other-bids entries, used as
witness input. -/
def sampleAdScore : AdScore :=
  ⟨2, 5, "https://ad.example/1", [], "ig1", "https://buyer.example",
   ⟨none, none⟩, [], []⟩

/-- A concrete AdScore whose highest-scoring-other-bids map has one owner
with an empty value list. -/
def sampleEmptyValuesScore : AdScore :=
  ⟨2, 5, "https://ad.example/1", [], "ig1", "https://buyer.example",
   ⟨none, none⟩, [("https://other.example", [])], []⟩

/-! ### Lemmas and claim theorems -/

namespace SelectAdReactor

/-- Membership in the positive-bid name set built by GetBiddingGroups. -/
theorem mem_positiveBidNames (bids : List AdWithBid) (s : String) :
    s ∈ positiveBidNames bids ↔
      ∃ b ∈ bids, 0 < b.bid ∧ b.interestGroupName = s := by
  simp only [positiveBidNames, List.mem_map, List.mem_filter, decide_eq_true_eq]
  constructor
  · rintro ⟨b, ⟨hb, hpos⟩, hname⟩
    exact ⟨b, hb, hpos, hname⟩
  · rintro ⟨b, hb, hpos, hname⟩
    exact ⟨b, ⟨hb, hpos⟩, hname⟩

/-- The index-collecting loop of GetBiddingGroups visits the groups in
order and keeps exactly the indices whose group name is in the given set,
shifted by the starting index. -/
theorem collectIndicesFrom_eq (names : List String)
    (igs : List InterestGroup) :
    ∀ i, collectIndicesFrom names i igs =
      ((List.range igs.length).filter
        (fun j => (igs.getD j default).name ∈ names)).map (fun j => j + i) := by
  induction igs with
  | nil => intro i; simp [collectIndicesFrom]
  | cons ig rest ih =>
    intro i
    rw [collectIndicesFrom, List.length_cons, List.range_succ_eq_map,
      List.filter_cons]
    have hmf : ((List.range rest.length).map Nat.succ).filter
        (fun j => decide (((ig :: rest).getD j default).name ∈ names)) =
        ((List.range rest.length).filter
          (fun j => decide ((rest.getD j default).name ∈ names))).map
          Nat.succ := by
      rw [List.filter_map]
      rfl
    rw [hmf]
    have htail : ((((List.range rest.length).filter
          (fun j => decide ((rest.getD j default).name ∈ names))).map
          Nat.succ).map (fun j => j + i)) =
        ((List.range rest.length).filter
          (fun j => decide ((rest.getD j default).name ∈ names))).map
          (fun j => j + (i + 1)) := by
      rw [List.map_map]
      refine List.map_congr_left ?_
      intro j _
      simp only [Function.comp_apply, Nat.succ_eq_add_one]
      omega
    by_cases h : ig.name ∈ names
    · rw [if_pos h]
      have hc : decide (((ig :: rest).getD 0 default).name ∈ names) = true := by
        simp [h]
      rw [hc, if_pos rfl, List.map_cons, htail, ih (i + 1)]
      simp
    · rw [if_neg h]
      have hc : decide (((ig :: rest).getD 0 default).name ∈ names) = false := by
        simp [h]
      rw [hc, if_neg (by simp), htail, ih (i + 1)]

/-- C1: for every buyer held in the collected bid map, the bidding-groups
index list is exactly, in original insertion order, the set of indices of
interest groups that produced a strictly positive bid; every listed index
is below the number of interest groups, and producing a positive bid means
some returned bid with bid greater than zero carries the group's name. -/
theorem claim_C1_bidding_groups (response : GetBidsRawResponse)
    (buyerInput : BuyerInput) :
    GetBiddingGroupsForBuyer response buyerInput =
      (List.range buyerInput.interestGroups.length).filter
        (fun i => (buyerInput.interestGroups.getD i default).name ∈
          positiveBidNames response.bids) ∧
    (∀ i ∈ GetBiddingGroupsForBuyer response buyerInput,
      i < buyerInput.interestGroups.length) ∧
    ∀ i, ((buyerInput.interestGroups.getD i default).name ∈
        positiveBidNames response.bids ↔
      ∃ b ∈ response.bids, 0 < b.bid ∧
        b.interestGroupName = (buyerInput.interestGroups.getD i default).name) := by
  have heq : GetBiddingGroupsForBuyer response buyerInput =
      (List.range buyerInput.interestGroups.length).filter
        (fun i => (buyerInput.interestGroups.getD i default).name ∈
          positiveBidNames response.bids) := by
    rw [GetBiddingGroupsForBuyer,
      collectIndicesFrom_eq (positiveBidNames response.bids)
        buyerInput.interestGroups 0]
    simp
  refine ⟨heq, ?_, ?_⟩
  · intro i hi
    rw [heq] at hi
    exact List.mem_range.mp (List.mem_of_mem_filter hi)
  · intro i
    exact mem_positiveBidNames response.bids _

end SelectAdReactor

namespace WebUtils

/-- The lexicographic comparison on character lists is total. -/
theorem lexLe_total : ∀ as bs : List Char,
    lexLe as bs = true ∨ lexLe bs as = true := by
  intro as
  induction as with
  | nil => intro bs; left; rfl
  | cons a as ih =>
    intro bs
    cases bs with
    | nil => right; rfl
    | cons b bs =>
      rcases lt_trichotomy a b with h | h | h
      · left; simp [lexLe, h]
      · subst h
        rcases ih bs with h2 | h2
        · left; simp [lexLe, h2]
        · right; simp [lexLe, h2]
      · right; simp [lexLe, h]

/-- The lexicographic comparison on character lists is transitive. -/
theorem lexLe_trans : ∀ as bs cs : List Char,
    lexLe as bs = true → lexLe bs cs = true → lexLe as cs = true := by
  intro as
  induction as with
  | nil => intro bs cs _ _; rfl
  | cons a as ih =>
    intro bs cs hab hbc
    cases bs with
    | nil => simp [lexLe] at hab
    | cons b bs =>
      cases cs with
      | nil => simp [lexLe] at hbc
      | cons c cs =>
        by_cases h1 : a < b
        · by_cases h2 : b < c
          · simp [lexLe, lt_trans h1 h2]
          · by_cases h3 : b = c
            · subst h3; simp [lexLe, h1]
            · simp [lexLe, h2, h3] at hbc
        · by_cases h4 : a = b
          · subst h4
            simp only [lexLe, lt_irrefl, if_false, if_pos rfl] at hab
            by_cases h2 : a < c
            · simp [lexLe, h2]
            · by_cases h3 : a = c
              · subst h3
                simp only [lexLe, lt_irrefl, if_false, if_pos rfl] at hbc ⊢
                exact ih bs cs hab hbc
              · simp [lexLe, h2, h3] at hbc
          · simp [lexLe, h1, h4] at hab

instance : IsTotal String ShortlexLe := by
  constructor
  intro a b
  unfold ShortlexLe shortlexLe
  rcases lt_trichotomy a.length b.length with h | h | h
  · left; simp [h]
  · have hnl : ¬ a.length < b.length := by omega
    have hnr : ¬ b.length < a.length := by omega
    rcases lexLe_total a.data b.data with h2 | h2
    · left; simp [hnl, hnr, h2]
    · right; simp [hnl, hnr, h2]
  · right; simp [h]

instance : IsTrans String ShortlexLe := by
  constructor
  intro a b c hab hbc
  unfold ShortlexLe shortlexLe at hab hbc ⊢
  by_cases h1 : a.length < b.length
  · by_cases h2 : b.length < c.length
    · simp [lt_trans h1 h2]
    · by_cases h3 : c.length < b.length
      · simp [h2, h3] at hbc
      · have : a.length < c.length := by omega
        simp [this]
  · by_cases h4 : b.length < a.length
    · simp [h1, h4] at hab
    · have hab2 : a.length = b.length := by omega
      by_cases h2 : b.length < c.length
      · simp [show a.length < c.length by omega]
      · by_cases h3 : c.length < b.length
        · simp [h2, h3] at hbc
        · have hbc2 : b.length = c.length := by omega
          simp only [h1, h4, if_false] at hab
          simp only [h2, h3, if_false] at hbc
          simp only [show ¬ a.length < c.length by omega,
            show ¬ c.length < a.length by omega, if_false]
          exact lexLe_trans a.data b.data c.data hab hbc

/-- C5: every CBOR map the AuctionResult encoder emits at the top level has
its string keys in shortlex order, in all three result states and whether
or not win-reporting urls are present; and the nested biddingGroups owner
map embedded in the result likewise has its keys in shortlex order. -/
theorem claim_C5_shortlex_map_keys (highScore : Option AdScore)
    (bgm : List (String × List ℕ)) (err : Option AuctionResultError) :
    List.Sorted ShortlexLe (mapKeys (Encode highScore bgm err)) ∧
    ∀ v, mapGet (Encode highScore bgm err) kBiddingGroups = some v →
      List.Sorted ShortlexLe (mapKeys v) := by
  have hnested : List.Sorted ShortlexLe
      (mapKeys (CborSerializeBiddingGroups bgm).2) := by
    simp only [CborSerializeBiddingGroups, mapKeys, List.map_map]
    have : (Prod.fst ∘ fun origin =>
        (origin, CborValue.arr (((bgm.lookup origin).getD []).map
          (fun index => CborValue.uint index)))) = id := by
      funext o; rfl
    rw [this, List.map_id]
    exact List.sorted_insertionSort ShortlexLe _
  cases err with
  | some e =>
    constructor
    · simp [Encode, CborSerializeError, mapKeys]
    · intro v hv
      simp [Encode, CborSerializeError, mapGet, List.lookup, kBiddingGroups,
        kError] at hv
  | none =>
    cases highScore with
    | none =>
      constructor
      · simp [Encode, mapKeys]
      · intro v hv
        simp [Encode, mapGet, List.lookup, kBiddingGroups, kChaff] at hv
    | some score =>
      constructor
      · rcases hw : score.winReportingUrls with ⟨buyer, top⟩
        cases buyer <;> cases top <;>
          simp [Encode, CborSerializeScoreAdResponse,
            CborSerializeWinReportingUrls, hw, mapKeys,
            CborSerializeBiddingGroups] <;>
          decide
      · intro v hv
        have : mapGet (Encode (some score) bgm none) kBiddingGroups =
            some (CborSerializeBiddingGroups bgm).2 := by
          rcases hw : score.winReportingUrls with ⟨buyer, top⟩
          simp [Encode, CborSerializeScoreAdResponse, mapGet, hw,
            CborSerializeBiddingGroups, List.lookup, kBiddingGroups, kBid,
            kScore, kChaff, kAdComponents, kAdRenderUrl]
        rw [this] at hv
        cases hv
        exact hnested

/-- Witness for C5: at a concrete winning score and bidding-group map, the
top-level keys and the nested biddingGroups keys are shortlex sorted. -/
theorem claim_C5_shortlex_map_keys_witness :
    List.Sorted ShortlexLe
      (mapKeys (Encode (some BA.sampleAdScore) [("b", [0])] none)) ∧
    List.Sorted ShortlexLe
      (mapKeys (CborValue.map [("b", CborValue.arr [CborValue.uint 0])])) :=
  ⟨(claim_C5_shortlex_map_keys (some BA.sampleAdScore) [("b", [0])] none).1,
   (claim_C5_shortlex_map_keys (some BA.sampleAdScore) [("b", [0])] none).2
     (CborValue.map [("b", CborValue.arr [CborValue.uint 0])]) rfl⟩

/-- C2: the encoded AuctionResult is in exactly one of three mutually
exclusive states, for every combination of the optional ad score coming
back from scoring and the optional client-visible error: the error state
holds exactly when an error was supplied; the winner state (isChaff false)
holds exactly when there is no error and the scoring response carries an ad
score with buyer_bid strictly positive; the chaff state (isChaff true)
holds exactly when there is no error and no positively-scored bid. -/
theorem claim_C2_auction_result_tri_state (resp : ScoreAdsRawResponse)
    (bgm : List (String × List ℕ)) (err : Option AuctionResultError) :
    (isErrorResult (Encode (SelectAdReactor.highScoreOfResponse resp) bgm err)
        = true ↔ err.isSome = true) ∧
    (isWinnerResult (Encode (SelectAdReactor.highScoreOfResponse resp) bgm err)
        = true ↔ err = none ∧ ∃ s, resp.adScore = some s ∧ 0 < s.buyerBid) ∧
    (isChaffResult (Encode (SelectAdReactor.highScoreOfResponse resp) bgm err)
        = true ↔ err = none ∧ ∀ s, resp.adScore = some s → ¬ 0 < s.buyerBid) ∧
    (isErrorResult (Encode (SelectAdReactor.highScoreOfResponse resp)
        bgm err)).toNat +
      (isWinnerResult (Encode (SelectAdReactor.highScoreOfResponse resp)
        bgm err)).toNat +
      (isChaffResult (Encode (SelectAdReactor.highScoreOfResponse resp)
        bgm err)).toNat = 1 := by
  cases err with
  | some e =>
    simp [Encode, CborSerializeError, isErrorResult, isWinnerResult,
      isChaffResult, hasChaffMarker, mapGet, List.lookup, kError, kChaff]
  | none =>
    cases hs : resp.adScore with
    | none =>
      simp [SelectAdReactor.highScoreOfResponse, hs, Encode, isErrorResult,
        isWinnerResult, isChaffResult, hasChaffMarker, mapGet, List.lookup,
        kError, kChaff]
    | some s =>
      by_cases hbid : 0 < s.buyerBid
      · have hhs : SelectAdReactor.highScoreOfResponse resp = some s := by
          simp [SelectAdReactor.highScoreOfResponse, hs, hbid]
        rcases hw : s.winReportingUrls with ⟨buyer, top⟩
        cases buyer <;> cases top <;>
          simp [hhs, hs, hbid, Encode, CborSerializeScoreAdResponse,
            CborSerializeWinReportingUrls, hw, isErrorResult, isWinnerResult,
            isChaffResult, hasChaffMarker, mapGet, List.lookup, kError, kChaff,
            kBid, kScore, kAdComponents, kAdRenderUrl, kBiddingGroups,
            kWinReportingUrls, kInterestGroupName, kInterestGroupOwner]
      · have hhs : SelectAdReactor.highScoreOfResponse resp = none := by
          simp [SelectAdReactor.highScoreOfResponse, hs, hbid]
        simp [hhs, hs, hbid, Encode, isErrorResult, isWinnerResult,
          isChaffResult, hasChaffMarker, mapGet, List.lookup, kError, kChaff]
        exact le_of_not_lt hbid

end WebUtils

namespace SelectAdReactor

/-- C4: client-visible errors are returned only inside the AuctionResult
that is sealed into the encrypted response, as an error entry with code 400
and a message joining every accumulated client-visible error with the
delimiter, while the outer gRPC status is OK; ad-server-visible errors
instead finish the RPC with a plain INVALID_ARGUMENT carrying the joined
error string and produce no encrypted result. -/
theorem claim_C4_error_channels (acc : ErrorAccumulatorState)
    (bgm : List (String × List ℕ))
    (response : Except GrpcError ScoreAdsRawResponse) :
    (¬ acc.adServerVisibleErrors.isEmpty →
      OnScoreAdsDone acc bgm response =
        ⟨.invalidArgument
          (GetAccumulatedErrorString acc.adServerVisibleErrors), none⟩) ∧
    (acc.adServerVisibleErrors.isEmpty → ¬ acc.clientVisibleErrors.isEmpty →
      ∀ resp, response = .ok resp →
        OnScoreAdsDone acc bgm response =
          ⟨.ok, some (.map [(WebUtils.kError, .map
            [(WebUtils.kMessage,
              .str (GetAccumulatedErrorString acc.clientVisibleErrors)),
             (WebUtils.kCode, .uint ClientSideErrorCode)])])⟩) := by
  constructor
  · intro h
    simp [OnScoreAdsDone, h]
  · intro h1 h2 resp hresp
    subst hresp
    simp [OnScoreAdsDone, h1, MayPopulateClientVisibleErrors, h2,
      WebUtils.Encode, WebUtils.CborSerializeError]

/-- Witness for C4: concrete accumulator states exercising both the
ad-server-visible and the client-visible error paths. -/
theorem claim_C4_error_channels_witness :
    OnScoreAdsDone ⟨[], ["bad auction config"]⟩ [] (.ok ⟨none⟩) =
      ⟨.invalidArgument (GetAccumulatedErrorString ["bad auction config"]),
       none⟩ ∧
    OnScoreAdsDone ⟨["missing generation id", "missing publisher name"], []⟩
        [] (.ok ⟨none⟩) =
      ⟨.ok, some (.map [(WebUtils.kError, .map
        [(WebUtils.kMessage, .str (GetAccumulatedErrorString
          ["missing generation id", "missing publisher name"])),
         (WebUtils.kCode, .uint ClientSideErrorCode)])])⟩ :=
  ⟨(claim_C4_error_channels ⟨[], ["bad auction config"]⟩ [] (.ok ⟨none⟩)).1
    (by decide),
   (claim_C4_error_channels
      ⟨["missing generation id", "missing publisher name"], []⟩ []
      (.ok ⟨none⟩)).2 (by decide) (by decide) ⟨none⟩ rfl⟩

/-- C6: when the scoring-signals fetch fails, the SFE still invokes the
Auction service, with a ScoreAds request that carries every bid collected
from every buyer in the shared map and no scoring signals (the member is
still null at that point, the only assignment to it being the success
branch of this callback). -/
theorem claim_C6_degraded_scoring (st : SfeBidState) (e : GrpcError)
    (h : st.scoringSignals = none) :
    OnFetchScoringSignalsDone st (.error e) =
      .invokeScoring (CreateScoreAdsRequest st) ∧
    (CreateScoreAdsRequest st).scoringSignals = none ∧
    (CreateScoreAdsRequest st).adBids =
      (st.sharedBuyerBidsMap.map (fun p =>
        p.2.bids.map (fun b => BuildAdWithBidMetadata b p.1))).flatten ∧
    ∀ buyer response, (buyer, response) ∈ st.sharedBuyerBidsMap →
      ∀ b ∈ response.bids,
        BuildAdWithBidMetadata b buyer ∈ (CreateScoreAdsRequest st).adBids := by
  refine ⟨rfl, ?_, rfl, ?_⟩
  · simp [CreateScoreAdsRequest, h]
  · intro buyer response hmem b hb
    simp only [CreateScoreAdsRequest, List.mem_flatten, List.mem_map]
    exact ⟨response.bids.map (fun b2 => BuildAdWithBidMetadata b2 buyer),
      ⟨(buyer, response), hmem, rfl⟩, List.mem_map_of_mem _ hb⟩

/-- Witness for C6: one buyer with one collected bid; the failed fetch
still produces a scoring invocation containing that bid and no scoring
signals. -/
theorem claim_C6_degraded_scoring_witness :
    OnFetchScoringSignalsDone
        ⟨[("buyer1", ⟨[⟨"r1", 5, "ig1"⟩]⟩)], "as", "ss", none⟩
        (.error ⟨14, "kv fetch failed"⟩) =
      .invokeScoring (CreateScoreAdsRequest
        ⟨[("buyer1", ⟨[⟨"r1", 5, "ig1"⟩]⟩)], "as", "ss", none⟩) ∧
    (CreateScoreAdsRequest
      ⟨[("buyer1", ⟨[⟨"r1", 5, "ig1"⟩]⟩)], "as", "ss", none⟩).scoringSignals =
      none ∧
    BuildAdWithBidMetadata ⟨"r1", 5, "ig1"⟩ "buyer1" ∈
      (CreateScoreAdsRequest
        ⟨[("buyer1", ⟨[⟨"r1", 5, "ig1"⟩]⟩)], "as", "ss", none⟩).adBids :=
  ⟨(claim_C6_degraded_scoring
      ⟨[("buyer1", ⟨[⟨"r1", 5, "ig1"⟩]⟩)], "as", "ss", none⟩
      ⟨14, "kv fetch failed"⟩ rfl).1,
   (claim_C6_degraded_scoring
      ⟨[("buyer1", ⟨[⟨"r1", 5, "ig1"⟩]⟩)], "as", "ss", none⟩
      ⟨14, "kv fetch failed"⟩ rfl).2.1,
   (claim_C6_degraded_scoring
      ⟨[("buyer1", ⟨[⟨"r1", 5, "ig1"⟩]⟩)], "as", "ss", none⟩
      ⟨14, "kv fetch failed"⟩ rfl).2.2.2 "buyer1" ⟨[⟨"r1", 5, "ig1"⟩]⟩
      (by simp) ⟨"r1", 5, "ig1"⟩ (by simp)⟩

end SelectAdReactor

namespace GetBidsUnaryReactor

/-- Counterexample to C3: at a concrete failed bidding-signals fetch, the
BFE callback finishes the RPC with the fetch's error status and does not
call the Bidding service, contradicting the claim that the GetBids RPC
does not fail solely because the KV fetch failed. -/
theorem claim_C3_counterexample :
    (onBiddingSignalsResponse
      (.error ⟨14, "bidding signals fetch failed"⟩)).isCallBidding = false ∧
    onBiddingSignalsResponse (.error ⟨14, "bidding signals fetch failed"⟩) =
      .finished 14 "bidding signals fetch failed" :=
  ⟨rfl, rfl⟩

/-- C3 as amended: on every bidding-signals fetch failure the BFE finishes
the GetBids RPC with the fetch's error status and never calls the Bidding
service; the Bidding service is called, with the fetched signals, exactly
when the fetch succeeds; no configuration flag modifies this. -/
theorem claim_C3_kv_failure_fails_rpc :
    (∀ e : GrpcError,
      onBiddingSignalsResponse (.error e) = .finished e.code e.message) ∧
    ∀ s, onBiddingSignalsResponse (.ok s) = .callBidding ⟨some s⟩ :=
  ⟨fun _ => rfl, fun _ => rfl⟩

end GetBidsUnaryReactor

namespace Framing

/-- C7: for every payload size n, the padded response size is the spec
formula, is at least the 256 byte floor, is a power of two, is large enough
for the framed payload, and is the least power of two above the floor that
fits the framed payload. -/
theorem claim_C7_padding (n : ℕ) :
    GetEncodedDataSize n =
      max kMinResultBytes (2 ^ Nat.clog 2 (n + kFramingMetadataSize)) ∧
    kMinResultBytes ≤ GetEncodedDataSize n ∧
    (∃ k, GetEncodedDataSize n = 2 ^ k) ∧
    n + kFramingMetadataSize ≤ GetEncodedDataSize n ∧
    ∀ m, kMinResultBytes ≤ m → n + kFramingMetadataSize ≤ m →
      (∃ k, m = 2 ^ k) → GetEncodedDataSize n ≤ m := by
  refine ⟨rfl, le_max_left _ _, ?_, ?_, ?_⟩
  · rcases le_total (2 ^ Nat.clog 2 (n + kFramingMetadataSize))
      kMinResultBytes with h | h
    · refine ⟨8, ?_⟩
      rw [GetEncodedDataSize, max_eq_left h]
      norm_num [kMinResultBytes]
    · exact ⟨Nat.clog 2 (n + kFramingMetadataSize),
        by rw [GetEncodedDataSize, max_eq_right h]⟩
  · calc n + kFramingMetadataSize
        ≤ 2 ^ Nat.clog 2 (n + kFramingMetadataSize) :=
          Nat.le_pow_clog one_lt_two _
      _ ≤ GetEncodedDataSize n := le_max_right _ _
  · rintro m h256 hge ⟨k, hk⟩
    subst hk
    apply max_le h256
    exact Nat.pow_le_pow_right (by norm_num)
      ((Nat.le_pow_iff_clog_le one_lt_two).mp hge)

/-- Witness for C7: a 300 byte payload is padded to at most 512 bytes, 512
being a 256-or-larger power of two that fits the framed payload. -/
theorem claim_C7_padding_witness :
    kMinResultBytes ≤ 512 ∧ 300 + kFramingMetadataSize ≤ 512 ∧
    GetEncodedDataSize 300 ≤ 512 :=
  ⟨by norm_num [kMinResultBytes], by norm_num [kFramingMetadataSize],
   (claim_C7_padding 300).2.2.2.2 512 (by norm_num [kMinResultBytes])
     (by norm_num [kFramingMetadataSize]) ⟨9, by norm_num⟩⟩

end Framing

namespace WebUtils

/-- C9: cbor_build_uint always chooses a width from the available unsigned
widths, the value fits in the chosen width, and no narrower available
width fits it. -/
theorem claim_C9_uint_width (n : ℕ) (h : n < 2 ^ 32) :
    cbor_build_uint_width n ∈ [1, 2, 4, 8] ∧
    n < 2 ^ (8 * cbor_build_uint_width n) ∧
    ∀ w ∈ ([1, 2, 4, 8] : List ℕ), n < 2 ^ (8 * w) →
      cbor_build_uint_width n ≤ w := by
  unfold cbor_build_uint_width
  split_ifs with h1 h2
  · refine ⟨by norm_num, by norm_num; omega, ?_⟩
    intro w hw _
    fin_cases hw
    all_goals norm_num
  · refine ⟨by norm_num, by norm_num; omega, ?_⟩
    intro w hw hfits
    fin_cases hw
    all_goals norm_num at hfits ⊢
    all_goals omega
  · refine ⟨by norm_num, by norm_num; omega, ?_⟩
    intro w hw hfits
    fin_cases hw
    all_goals norm_num at hfits ⊢
    all_goals omega

/-- Witness for C9: the value 70000 is in range, gets a listed width, and
fits the chosen width. -/
theorem claim_C9_uint_width_witness :
    (70000 : ℕ) < 2 ^ 32 ∧ cbor_build_uint_width 70000 ∈ [1, 2, 4, 8] ∧
    70000 < 2 ^ (8 * cbor_build_uint_width 70000) :=
  ⟨by norm_num, (claim_C9_uint_width 70000 (by norm_num)).1,
   (claim_C9_uint_width 70000 (by norm_num)).2.1⟩

end WebUtils

namespace ReportingUtil

/-- C8: debug url substitution is the literal five-placeholder replacement,
the value substituted for the rejectReason placeholder is exactly the
string form of the rejection reason, and that string is always one of the
eight fixed rejection-reason strings. -/
theorem claim_C8_reject_reason_closed_vocabulary (url : String)
    (pd : DebugReportingPlaceholder) :
    CreateDebugReportingHttpRequest url pd =
      ⟨StrReplaceAll url (placeholderTable pd), []⟩ ∧
    (placeholderTable pd).lookup kRejectReasonPlaceholder =
      some (ToSellerRejectionReasonString pd.rejectionReason) ∧
    ToSellerRejectionReasonString pd.rejectionReason ∈
      [kRejectionReasonNotAvailable, kRejectionReasonInvalidBid,
       kRejectionReasonBidBelowAuctionFloor,
       kRejectionReasonPendingApprovalByExchange,
       kRejectionReasonDisapprovedByExchange,
       kRejectionReasonBlockedByPublisher,
       kRejectionReasonLanguageExclusions,
       kRejectionReasonCategoryExclusions] := by
  refine ⟨rfl, ?_, ?_⟩
  · simp [placeholderTable, List.lookup, kRejectReasonPlaceholder,
      kWinningBidPlaceholder, kMadeWinningBidPlaceholder,
      kHighestScoringOtherBidPlaceholder,
      kMadeHighestScoringOtherBidPlaceholder]
  · cases hr : pd.rejectionReason <;> simp [ToSellerRejectionReasonString]

/-- C10 is a code bug: GeneratePostAuctionSignals copies the local bool
has_highest_scoring_other_bid into the returned struct without it ever
being assigned when a winning score is present but the
highest-scoring-other-bids map is empty, or when its first entry has no
values; the field is indeterminate (none in this model) rather than the
false the claim requires, while the no-winner branch does set the explicit
false default. -/
theorem claim_C10_uninitialized_has_highest_scoring_other_bid :
    (GeneratePostAuctionSignals
      (some BA.sampleAdScore)).hasHighestScoringOtherBid = none ∧
    (GeneratePostAuctionSignals
      (some BA.sampleEmptyValuesScore)).hasHighestScoringOtherBid = none ∧
    (GeneratePostAuctionSignals none).hasHighestScoringOtherBid =
      some false :=
  ⟨rfl, rfl, rfl⟩

end ReportingUtil

end BA
